import Mathlib

/-!
Shallow embedding of the sync-board-server core
(`src/utils/validation.js`, `src/storage/DataStorage.js`,
`src/handlers` section of `src/socket/SocketManager.js`,
`src/config/constants.js`).

Conventions:
  * JavaScript timestamps (`new Date().toISOString()`) are modelled as a
    `Nat` tick `now` passed explicitly to every operation that reads the
    clock.
  * JavaScript objects keyed by strings are modelled as association lists
    `List (String × β)` with `alookup` / `aset` / `aerase` mirroring
    property read / property write / `delete`.
  * A field that is `null` or deleted (`delete obj.f`) is `none`; both are
    falsy in every guard of the source, so the distinction is never
    observable there.
  * `setTimeout` / `clearTimeout` are modelled by a system-level list of
    armed timers, each carrying its id and the `(roomId, userId)` captured
    by the callback; firing a timer runs the callback body.
-/

namespace SyncBoard

/-- A JavaScript value as it can arrive in a socket event payload:
a string, or any non-string value (number, null, undefined, boolean). -/
inductive JSVal where
  | str (s : String)
  | num (n : Int)
  | nullV
  | undefinedV
  | boolV (b : Bool)
deriving Repr, DecidableEq

/-- config/constants.js: `MAX_ROOM_SIZE: 10`. -/
def MAX_ROOM_SIZE : Nat := 10

/-- config/constants.js: `MAX_TEXT_LENGTH: 1000000`. -/
def MAX_TEXT_LENGTH : Nat := 1000000

/-- config/constants.js: `DISCONNECT_GRACE_PERIOD: 5000`. -/
def DISCONNECT_GRACE_PERIOD : Nat := 5000

/-- The character class kept by the source regex replace
`/[^a-zA-Z0-9-]/g` in validation.js (characters NOT matching are removed,
i.e. the kept characters are `a-z`, `A-Z`, `0-9` and `-`). -/
def isIdChar (c : Char) : Bool :=
  ('a' ≤ c && c ≤ 'z') || ('A' ≤ c && c ≤ 'Z') || ('0' ≤ c && c ≤ '9') || c = '-'

/-- validation.js `sanitizeRoomId`:
`if (!roomId || typeof roomId !== 'string') return null;`
(the empty string is falsy, every non-string returns null either by
falsiness or by the typeof test), then
`roomId.replace(/[^a-zA-Z0-9-]/g, '').substring(0, 50)`. -/
def sanitizeRoomId : JSVal → Option String
  | JSVal.str s => if s = "" then none else some (String.mk ((s.data.filter isIdChar).take 50))
  | _ => none

/-- validation.js `sanitizeUserId`: same guard and same replace/substring
as `sanitizeRoomId`. -/
def sanitizeUserId : JSVal → Option String
  | JSVal.str s => if s = "" then none else some (String.mk ((s.data.filter isIdChar).take 50))
  | _ => none

/-- validation.js `sanitizeText`: non-string coerces to `''`; strings over
`maxLength` are truncated with `substring(0, maxLength)`. -/
def sanitizeText (text : JSVal) (maxLength : Nat) : String :=
  match text with
  | JSVal.str s => if s.length > maxLength then String.mk (s.data.take maxLength) else s
  | _ => ""

abbrev RoomId := String
abbrev UserId := String
abbrev SocketId := Nat
abbrev TimerId := Nat

/-- One entry of `room.users` in DataStorage.js: `timeoutId`, `socketId`,
`joinedAt`, `lastSeen`.  `none` models both `null` and a deleted field. -/
structure User where
  timeoutId : Option TimerId
  socketId : Option SocketId
  joinedAt : Nat
  lastSeen : Nat
deriving Repr, DecidableEq

/-- One entry of `this.data` in DataStorage.js. -/
structure Room where
  text : String
  users : List (UserId × User)
  createdAt : Nat
  lastUpdated : Nat
deriving Repr, DecidableEq

/-- Property read on a string-keyed object: `obj[k]`. -/
def alookup {β : Type} : List (String × β) → String → Option β
  | [], _ => none
  | (k', v) :: rest, k => if k' = k then some v else alookup rest k

/-- Property write on a string-keyed object: `obj[k] = v` (replaces the
existing entry, otherwise appends a new one). -/
def aset {β : Type} : List (String × β) → String → β → List (String × β)
  | [], k, v => [(k, v)]
  | (k', v') :: rest, k, v => if k' = k then (k, v) :: rest else (k', v') :: aset rest k v

/-- Property delete on a string-keyed object: `delete obj[k]`. -/
def aerase {β : Type} : List (String × β) → String → List (String × β)
  | [], _ => []
  | (k', v') :: rest, k => if k' = k then aerase rest k else (k', v') :: aerase rest k

abbrev RoomMap := List (RoomId × Room)

/-- DataStorage.getRoomData: `return this.data[roomId]`. -/
def getRoomData (data : RoomMap) (roomId : RoomId) : Option Room :=
  alookup data roomId

/-- DataStorage.createRoom: fresh room with empty text, empty users and
both timestamps set to the current time. -/
def createRoom (data : RoomMap) (roomId : RoomId) (now : Nat) : RoomMap :=
  aset data roomId { text := "", users := [], createdAt := now, lastUpdated := now }

/-- DataStorage.updateRoomText: `if (this.data[roomId])` set `text` and
`lastUpdated`. -/
def updateRoomText (data : RoomMap) (roomId : RoomId) (text : String) (now : Nat) : RoomMap :=
  match alookup data roomId with
  | none => data
  | some room => aset data roomId { room with text := text, lastUpdated := now }

/-- DataStorage.addUserToRoom: reads `this.data[roomId].users` without a
room-existence guard (a missing room throws a TypeError, modelled as
`none`); inserts the fresh user and refreshes `lastUpdated`. -/
def addUserToRoom (data : RoomMap) (roomId userId : String) (socketId : SocketId)
    (now : Nat) : Option RoomMap :=
  match alookup data roomId with
  | none => none
  | some room =>
      some (aset data roomId { room with
        users := aset room.users userId
          { timeoutId := none, socketId := some socketId, joinedAt := now, lastSeen := now },
        lastUpdated := now })

/-- DataStorage.reconnectUser: reads `this.data[roomId].users` without a
room-existence guard (missing room throws, modelled as `none`).  If the
user exists: `clearTimeout(user.timeoutId)` (the cleared id is returned so
the caller's timer bookkeeping can act on it) and the user is replaced by
`{...user, socketId, lastSeen: now}` — `joinedAt` and the stored
`timeoutId` field are kept by the spread, and `room.lastUpdated` is not
touched. -/
def reconnectUser (data : RoomMap) (roomId userId : String) (socketId : SocketId)
    (now : Nat) : Option (RoomMap × Option TimerId) :=
  match alookup data roomId with
  | none => none
  | some room =>
      match alookup room.users userId with
      | none => some (data, none)
      | some u =>
          some (aset data roomId { room with
              users := aset room.users userId
                { u with socketId := some socketId, lastSeen := now } },
            u.timeoutId)

/-- DataStorage.updateUserLastSeen: guarded by `?.` at every level. -/
def updateUserLastSeen (data : RoomMap) (roomId userId : String) (now : Nat) : RoomMap :=
  match alookup data roomId with
  | none => data
  | some room =>
      match alookup room.users userId with
      | none => data
      | some u =>
          aset data roomId { room with
            users := aset room.users userId { u with lastSeen := now } }

/-- DataStorage.getUserCount: number of keys of `users`, 0 when the room
is missing. -/
def getUserCount (data : RoomMap) (roomId : RoomId) : Nat :=
  match alookup data roomId with
  | none => 0
  | some room => room.users.length

/-- DataStorage.userExists: truthy iff the room exists and
`users[userId]` exists. -/
def userExists (data : RoomMap) (roomId userId : String) : Bool :=
  match alookup data roomId with
  | none => false
  | some room => (alookup room.users userId).isSome

/-- DataStorage.disconnectUser: if the user exists, set its `socketId` to
null and return the (mutated) user object; otherwise return null. -/
def disconnectUser (data : RoomMap) (roomId userId : String) : RoomMap × Option User :=
  match alookup data roomId with
  | none => (data, none)
  | some room =>
      match alookup room.users userId with
      | none => (data, none)
      | some u =>
          let uDisc := { u with socketId := none }
          (aset data roomId { room with users := aset room.users userId uDisc }, some uDisc)

/-- DataStorage.removeUser: delete the user, refresh `lastUpdated`, return
the remaining key count; 0 when the room is missing. -/
def removeUser (data : RoomMap) (roomId userId : String) (now : Nat) : RoomMap × Nat :=
  match alookup data roomId with
  | none => (data, 0)
  | some room =>
      let usersRest := aerase room.users userId
      (aset data roomId { room with users := usersRest, lastUpdated := now }, usersRest.length)

/-- DataStorage.setUserTimeout: guarded by `?.` at every level. -/
def setUserTimeout (data : RoomMap) (roomId userId : String) (tid : TimerId) : RoomMap :=
  match alookup data roomId with
  | none => data
  | some room =>
      match alookup room.users userId with
      | none => data
      | some u =>
          aset data roomId { room with
            users := aset room.users userId { u with timeoutId := some tid } }

/-- The field stripping done inside DataStorage.saveRoom:
`delete users[userId].socketId; delete users[userId].timeoutId`. -/
def stripUser (u : User) : User :=
  { u with socketId := none, timeoutId := none }

/-- Strip every user of a `users` object. -/
def stripUsers (users : List (UserId × User)) : List (UserId × User) :=
  users.map (fun p => (p.1, stripUser p.2))

/-- DataStorage.saveRoom.  `dataToSave = {...this.data[roomId],
lastUpdated: now}` is a SHALLOW copy: `dataToSave.users` is the very same
object as the in-memory `this.data[roomId].users`, so the
`delete ...socketId / ...timeoutId` loop strips those fields from the
in-memory registry as well as from the record written to disk.  The
in-memory room keeps its old top-level `lastUpdated` (that field lives on
the copied top-level object); the written record carries `lastUpdated =
now`.  Returns (new in-memory data, new durable store). -/
def saveRoom (data store : RoomMap) (roomId : RoomId) (now : Nat) : RoomMap × RoomMap :=
  match alookup data roomId with
  | none => (data, store)
  | some room =>
      let strippedUsers := stripUsers room.users
      let memRoom := { room with users := strippedUsers }
      let savedRoom := { room with users := strippedUsers, lastUpdated := now }
      (aset data roomId memRoom, aset store roomId savedRoom)

/-- DataStorage.deleteRoom: `delete this.data[roomId]` and unlink the
room's file (a missing file only logs). -/
def deleteRoom (data store : RoomMap) (roomId : RoomId) : RoomMap × RoomMap :=
  (aerase data roomId, aerase store roomId)

/-- DataStorage.loadData, first pass over one parsed record: reset
`socketId` and `timeoutId` to null for every user. -/
def loadRoomFromStore (room : Room) : Room :=
  { room with users := stripUsers room.users }

/-- DataStorage.loadData, second pass ("Clear all users on server restart
since they're all disconnected"): for every loaded room with a non-empty
`users` object, set `users = {}` and `saveRoom` it. -/
def clearRooms : List RoomId → RoomMap → RoomMap → Nat → RoomMap × RoomMap
  | [], data, store, _ => (data, store)
  | roomId :: rest, data, store, now =>
      match alookup data roomId with
      | none => clearRooms rest data store now
      | some room =>
          if room.users.length > 0 then
            let dataCleared := aset data roomId { room with users := [] }
            let res := saveRoom dataCleared store roomId now
            clearRooms rest res.1 res.2 now
          else clearRooms rest data store now

/-- DataStorage.loadData: read every persisted record, null out
`socketId`/`timeoutId`, then clear every non-empty membership and
re-persist.  Returns (in-memory data, durable store). -/
def loadData (store : RoomMap) (now : Nat) : RoomMap × RoomMap :=
  let loaded := store.map (fun p => (p.1, loadRoomFromStore p.2))
  clearRooms (loaded.map (fun p => p.1)) loaded store now

/-- Whole-system state: the in-memory registry, the durable store, the
armed `setTimeout` eviction timers (each with its id and the
`(roomId, userId)` captured by its callback), and the next fresh timer
id. -/
structure Sys where
  data : RoomMap
  store : RoomMap
  pending : List (TimerId × RoomId × UserId)
  nextTimer : TimerId
deriving Repr, DecidableEq

/-- The server starts with an empty registry, empty store and no timers. -/
def init0 : Sys := { data := [], store := [], pending := [], nextTimer := 0 }

/-- `clearTimeout(tid)`: disarm the timer with that id; `clearTimeout` of
`null`/`undefined` is a no-op. -/
def clearTimer (pending : List (TimerId × RoomId × UserId)) (tid : Option TimerId) :
    List (TimerId × RoomId × UserId) :=
  match tid with
  | none => pending
  | some t => pending.filter (fun p => p.1 ≠ t)

/-- Outcome of SocketHandlers.handleInit, as emitted on the socket. -/
inductive InitResult where
  | invalidIds
  | alreadyBound
  | roomFull
  | connectionFailed
  | ok (isNewUser : Bool) (roomId userId : String)
deriving Repr, DecidableEq

/-- The duplicate-initialization guard of handleInit:
`if (socket.roomId && socket.userId) return;` — both bound values must be
truthy (non-empty) strings. -/
def boundTruthy (bound : Option (RoomId × UserId)) : Bool :=
  match bound with
  | none => false
  | some (br, bu) => br ≠ "" && bu ≠ ""

/-- SocketHandlers.handleInit.  `bound` is the socket's
`(socket.roomId, socket.userId)` pair (`none` when unbound).  Returns the
new system state, the socket's new binding and the emitted outcome.
Sanitization guard: `if (!roomId || !cleanUserId)` rejects `null` results
and the falsy empty string. -/
def handleInit (s : Sys) (bound : Option (RoomId × UserId)) (syncUrl userIdRaw : JSVal)
    (socketId : SocketId) (now : Nat) : Sys × Option (RoomId × UserId) × InitResult :=
  match sanitizeRoomId syncUrl, sanitizeUserId userIdRaw with
  | some roomId, some userId =>
    if roomId = "" ∨ userId = "" then (s, bound, InitResult.invalidIds)
    else if boundTruthy bound then (s, bound, InitResult.alreadyBound)
    else
      let totalUsersCount := getUserCount s.data roomId
      let userAlreadyExists := userExists s.data roomId userId
      if totalUsersCount ≥ MAX_ROOM_SIZE ∧ userAlreadyExists = false then
        (s, bound, InitResult.roomFull)
      else
        let data1 := if (getRoomData s.data roomId).isSome then s.data
                     else createRoom s.data roomId now
        if userExists data1 roomId userId then
          match reconnectUser data1 roomId userId socketId now with
          | none => ({ s with data := data1 }, bound, InitResult.connectionFailed)
          | some (data2, clearedTid) =>
              let pending2 := clearTimer s.pending clearedTid
              let saved := saveRoom data2 s.store roomId now
              ({ data := saved.1, store := saved.2, pending := pending2,
                 nextTimer := s.nextTimer },
               some (roomId, userId), InitResult.ok false roomId userId)
        else
          match addUserToRoom data1 roomId userId socketId now with
          | none => ({ s with data := data1 }, bound, InitResult.connectionFailed)
          | some data2 =>
              let saved := saveRoom data2 s.store roomId now
              ({ data := saved.1, store := saved.2, pending := s.pending,
                 nextTimer := s.nextTimer },
               some (roomId, userId), InitResult.ok true roomId userId)
  | _, _ => (s, bound, InitResult.invalidIds)

/-- Outcome of SocketHandlers.handleTextChange. -/
inductive TextChangeResult where
  | invalidRoomOrUser
  | notInRoom
  | ok (cleanText : String)
deriving Repr, DecidableEq

/-- SocketHandlers.handleTextChange: sanitize; reject when either id is
unusable or the room does not exist (`Invalid room or user`), or when the
user is not in the room (`User not in room`); otherwise update text and
timestamps, broadcast the clean text to the room's siblings, and persist
the room. -/
def handleTextChange (s : Sys) (textRaw syncUrl userIdRaw : JSVal) (now : Nat) :
    Sys × TextChangeResult :=
  match sanitizeRoomId syncUrl, sanitizeUserId userIdRaw with
  | some roomId, some userId =>
    let cleanText := sanitizeText textRaw MAX_TEXT_LENGTH
    if roomId = "" ∨ userId = "" ∨ (getRoomData s.data roomId).isNone then
      (s, TextChangeResult.invalidRoomOrUser)
    else if userExists s.data roomId userId = false then
      (s, TextChangeResult.notInRoom)
    else
      let data1 := updateRoomText s.data roomId cleanText now
      let data2 := updateUserLastSeen data1 roomId userId now
      let saved := saveRoom data2 s.store roomId now
      ({ s with data := saved.1, store := saved.2 }, TextChangeResult.ok cleanText)
  | _, _ => (s, TextChangeResult.invalidRoomOrUser)

/-- Outcome of SocketHandlers.handleInitText. -/
inductive InitTextResult where
  | invalidIds
  | unauthorized
  | gotText (text : String) (roomId : String)
deriving Repr, DecidableEq

/-- SocketHandlers.handleInitText: sanitize; then
`if (!socket.roomId || !socket.userId || socket.roomId !== roomId ||
socket.userId !== cleanUserId)` reject as unauthorized; otherwise emit the
room's text (`roomData.text || ''`), or `''` when the room does not exist.
Reads only, never mutates state. -/
def handleInitText (bound : Option (RoomId × UserId)) (data : RoomMap)
    (urlRaw userIdRaw : JSVal) : InitTextResult :=
  match sanitizeRoomId urlRaw, sanitizeUserId userIdRaw with
  | some roomId, some userId =>
    if roomId = "" ∨ userId = "" then InitTextResult.invalidIds
    else
      match bound with
      | none => InitTextResult.unauthorized
      | some (br, bu) =>
        if br = "" ∨ bu = "" ∨ br ≠ roomId ∨ bu ≠ userId then InitTextResult.unauthorized
        else
          match getRoomData data roomId with
          | some room => InitTextResult.gotText room.text roomId
          | none => InitTextResult.gotText "" roomId
  | _, _ => InitTextResult.invalidIds

/-- SocketHandlers.handleDisconnect: if the socket is bound and the room
exists, null the member's `socketId` (disconnectUser); if the member was
found, `clearTimeout(userData.timeoutId)`, arm a fresh grace timer whose
callback captures `(roomId, userId)`, and store the new timer id on the
member. -/
def handleDisconnect (s : Sys) (bound : Option (RoomId × UserId)) : Sys :=
  match bound with
  | none => s
  | some (roomId, userId) =>
    if roomId = "" ∨ userId = "" then s
    else if (getRoomData s.data roomId).isNone then s
    else
      let disc := disconnectUser s.data roomId userId
      match disc.2 with
      | none => { s with data := disc.1 }
      | some userData =>
          let pending1 := clearTimer s.pending userData.timeoutId
          let tid := s.nextTimer
          let pending2 := pending1 ++ [(tid, roomId, userId)]
          let data2 := setUserTimeout disc.1 roomId userId tid
          { data := data2, store := s.store, pending := pending2, nextTimer := tid + 1 }

/-- The grace-timer callback of handleDisconnect, run when the armed timer
`tid` fires: remove the captured user unconditionally ("Always delete user
on disconnect"); if the remaining count is zero, delete the room from
memory and disk, otherwise persist the smaller room. -/
def fireTimer (s : Sys) (tid : TimerId) (now : Nat) : Sys :=
  match (s.pending.filter (fun p => p.1 = tid)).head? with
  | none => s
  | some entry =>
      let roomId := entry.2.1
      let userId := entry.2.2
      let pending1 := s.pending.filter (fun p => p.1 ≠ tid)
      let removed := removeUser s.data roomId userId now
      if removed.2 = 0 then
        let del := deleteRoom removed.1 s.store roomId
        { data := del.1, store := del.2, pending := pending1, nextTimer := s.nextTimer }
      else
        let saved := saveRoom removed.1 s.store roomId now
        { data := saved.1, store := saved.2, pending := pending1, nextTimer := s.nextTimer }

/-- One externally triggered transition of the system: an admission
attempt (covering both the new-member and the reconnection path), a text
change, a connection closing, or a grace timer firing.  Socket bindings
and payloads are universally quantified, which over-approximates the set
of reachable states. -/
inductive Step : Sys → Sys → Prop where
  | init (s : Sys) (bound : Option (RoomId × UserId)) (syncUrl userIdRaw : JSVal)
      (socketId : SocketId) (now : Nat) :
      Step s (handleInit s bound syncUrl userIdRaw socketId now).1
  | textChange (s : Sys) (textRaw syncUrl userIdRaw : JSVal) (now : Nat) :
      Step s (handleTextChange s textRaw syncUrl userIdRaw now).1
  | disconnect (s : Sys) (bound : Option (RoomId × UserId)) :
      Step s (handleDisconnect s bound)
  | fire (s : Sys) (tid : TimerId) (now : Nat) :
      Step s (fireTimer s tid now)

/-- States reachable from the empty server by any sequence of steps. -/
def Reachable (s : Sys) : Prop :=
  Relation.ReflTransGen Step init0 s

/-! ### Association-list lemmas -/

theorem alookup_aset {β : Type} (l : List (String × β)) (k j : String) (v : β) :
    alookup (aset l k v) j = if j = k then some v else alookup l j := by
  induction l with
  | nil =>
      by_cases h : j = k
      · subst h
        simp [aset, alookup]
      · have h' : ¬ k = j := fun e => h e.symm
        simp [aset, alookup, h, h']
  | cons p rest ih =>
      obtain ⟨k', v'⟩ := p
      by_cases hk : k' = k
      · subst hk
        by_cases hj : j = k'
        · subst hj
          simp [aset, alookup]
        · have hj' : ¬ k' = j := fun e => hj e.symm
          simp [aset, alookup, hj, hj']
      · by_cases hj : j = k'
        · subst hj
          simp [aset, alookup, hk]
        · have hj' : ¬ k' = j := fun e => hj e.symm
          simp [aset, alookup, hk, hj', ih]

theorem length_aset_of_isSome {β : Type} (l : List (String × β)) (k : String) (v : β)
    (h : (alookup l k).isSome) : (aset l k v).length = l.length := by
  induction l with
  | nil => simp [alookup] at h
  | cons p rest ih =>
      obtain ⟨k', v'⟩ := p
      by_cases hk : k' = k
      · simp [aset, hk]
      · simp [alookup, hk] at h
        simp [aset, hk, ih h]

theorem length_aset_of_none {β : Type} (l : List (String × β)) (k : String) (v : β)
    (h : alookup l k = none) : (aset l k v).length = l.length + 1 := by
  induction l with
  | nil => simp [aset]
  | cons p rest ih =>
      obtain ⟨k', v'⟩ := p
      by_cases hk : k' = k
      · simp [alookup, hk] at h
      · simp [alookup, hk] at h
        simp [aset, hk, ih h]

theorem length_aerase_le {β : Type} (l : List (String × β)) (k : String) :
    (aerase l k).length ≤ l.length := by
  induction l with
  | nil => simp [aerase]
  | cons p rest ih =>
      obtain ⟨k', v'⟩ := p
      by_cases hk : k' = k
      · simp only [aerase, if_pos hk, List.length_cons]
        omega
      · simp only [aerase, if_neg hk, List.length_cons]
        omega

theorem length_aerase_lt {β : Type} (l : List (String × β)) (k : String) (v : β)
    (h : alookup l k = some v) : (aerase l k).length < l.length := by
  induction l with
  | nil => simp [alookup] at h
  | cons p rest ih =>
      obtain ⟨k', v'⟩ := p
      by_cases hk : k' = k
      · have hle := length_aerase_le rest k
        simp only [aerase, if_pos hk, List.length_cons]
        omega
      · simp only [alookup, if_neg hk] at h
        have := ih h
        simp only [aerase, if_neg hk, List.length_cons]
        omega

theorem alookup_aerase {β : Type} (l : List (String × β)) (k j : String) :
    alookup (aerase l k) j = if j = k then none else alookup l j := by
  induction l with
  | nil => simp [aerase, alookup]
  | cons p rest ih =>
      obtain ⟨k', v'⟩ := p
      by_cases hk : k' = k
      · subst hk
        by_cases hj : j = k'
        · subst hj
          simp [aerase, alookup, ih]
        · have hj' : ¬ k' = j := fun e => hj e.symm
          simp [aerase, alookup, hj, hj', ih]
      · by_cases hj : j = k'
        · subst hj
          simp [aerase, alookup, hk]
        · have hj' : ¬ k' = j := fun e => hj e.symm
          simp [aerase, alookup, hk, hj', ih]

theorem alookup_map {β γ : Type} (f : β → γ) (l : List (String × β)) (k : String) :
    alookup (l.map (fun p => (p.1, f p.2))) k = (alookup l k).map f := by
  induction l with
  | nil => simp [alookup]
  | cons p rest ih =>
      obtain ⟨k', v'⟩ := p
      by_cases hk : k' = k <;> simp [alookup, hk, ih]

theorem alookup_stripUsers (l : List (UserId × User)) (u : UserId) :
    alookup (stripUsers l) u = (alookup l u).map stripUser :=
  alookup_map stripUser l u

theorem stripUsers_length (l : List (UserId × User)) :
    (stripUsers l).length = l.length := by
  simp [stripUsers]

theorem alookup_mem_keys {β : Type} (l : List (String × β)) (k : String) (v : β)
    (h : alookup l k = some v) : k ∈ l.map Prod.fst := by
  induction l with
  | nil => simp [alookup] at h
  | cons p rest ih =>
      obtain ⟨k', v'⟩ := p
      by_cases hk : k' = k
      · simp [hk]
      · simp [alookup, hk] at h
        simp [ih h]

theorem userExists_iff (data : RoomMap) (roomId userId : String) :
    userExists data roomId userId = true ↔
      ∃ room u, alookup data roomId = some room ∧ alookup room.users userId = some u := by
  unfold userExists
  cases hroom : alookup data roomId with
  | none => simp
  | some room =>
      cases hu : alookup room.users userId with
      | none => simp [hu]
      | some u =>
          simp [hu]

theorem saveRoom_data_lookup_ne (data store : RoomMap) (roomId j : String) (now : Nat)
    (h : j ≠ roomId) : alookup (saveRoom data store roomId now).1 j = alookup data j := by
  unfold saveRoom
  cases hroom : alookup data roomId with
  | none => rfl
  | some room => simp [alookup_aset, h]

theorem saveRoom_store_lookup_ne (data store : RoomMap) (roomId j : String) (now : Nat)
    (h : j ≠ roomId) : alookup (saveRoom data store roomId now).2 j = alookup store j := by
  unfold saveRoom
  cases hroom : alookup data roomId with
  | none => rfl
  | some room => simp [alookup_aset, h]

theorem saveRoom_data_lookup_eq (data store : RoomMap) (roomId : String) (now : Nat)
    (room : Room) (h : alookup data roomId = some room) :
    alookup (saveRoom data store roomId now).1 roomId =
      some { room with users := stripUsers room.users } := by
  unfold saveRoom
  rw [h]
  simp [alookup_aset]

theorem saveRoom_store_lookup_eq (data store : RoomMap) (roomId : String) (now : Nat)
    (room : Room) (h : alookup data roomId = some room) :
    alookup (saveRoom data store roomId now).2 roomId =
      some { room with users := stripUsers room.users, lastUpdated := now } := by
  unfold saveRoom
  rw [h]
  simp [alookup_aset]

/-! ### Claim C9 — the sanitizers -/

/-- The character class named by the spec: `[A-Za-z0-9-]`.  Written from
the spec's words, to be compared with the source-side `isIdChar`. -/
def specAllowedChar (c : Char) : Bool :=
  ('A' ≤ c && c ≤ 'Z') || ('a' ≤ c && c ≤ 'z') || ('0' ≤ c && c ≤ '9') || c = '-'

/-- The spec's notion of a usable input: a non-empty string.  Written from
the spec's words. -/
def specUsableString : JSVal → Bool
  | JSVal.str s => s ≠ ""
  | _ => false

theorem isIdChar_eq_specAllowedChar (c : Char) : isIdChar c = specAllowedChar c := by
  simp only [isIdChar, specAllowedChar]
  cases h1 : ('a' ≤ c && c ≤ 'z') <;> cases h2 : ('A' ≤ c && c ≤ 'Z') <;>
    cases h3 : ('0' ≤ c && c ≤ '9') <;> cases h4 : (decide (c = '-')) <;>
      simp [h1, h2, h3, h4]

/-- Claim C9: `sanitizeRoomId` (and identically `sanitizeUserId`) is total:
it returns `null` exactly when the input is not a non-empty string, and on
every non-empty string it returns the input with all characters outside
`[A-Za-z0-9-]` removed, truncated to 50 characters. -/
theorem sanitizeRoomId_spec :
    (∀ v, sanitizeRoomId v = none ↔ specUsableString v = false) ∧
    (∀ s, sanitizeRoomId (JSVal.str s) =
        if s = "" then none
        else some (String.mk ((s.data.filter specAllowedChar).take 50))) ∧
    (∀ v, sanitizeUserId v = sanitizeRoomId v) := by
  refine ⟨?_, ?_, ?_⟩
  · intro v
    cases v with
    | str s =>
        by_cases hs : s = "" <;> simp [sanitizeRoomId, specUsableString, hs]
    | num n => simp [sanitizeRoomId, specUsableString]
    | nullV => simp [sanitizeRoomId, specUsableString]
    | undefinedV => simp [sanitizeRoomId, specUsableString]
    | boolV b => simp [sanitizeRoomId, specUsableString]
  · intro s
    by_cases hs : s = "" <;>
      simp [sanitizeRoomId, hs, List.filter_congr (fun c _ => isIdChar_eq_specAllowedChar c)]
  · intro v
    cases v <;> rfl

/-! ### Claims C2, C3, C6 — the shallow-copy aliasing of `saveRoom`

`saveRoom` spreads the room object shallowly, so its
`delete users[userId].socketId / timeoutId` loop strips those fields from
the in-memory registry, not only from the record written to disk. -/

/-- The invariant stated by claim C2: in-memory, a member with no live
connection always carries a pending eviction timer handle. -/
def disconnectedHaveTimers (s : Sys) : Prop :=
  ∀ roomId room userId u, alookup s.data roomId = some room →
    alookup room.users userId = some u → u.socketId = none → u.timeoutId ≠ none

/-- The registry state after the very first admission,
`init("room1", "alice")` on a fresh socket of id 1 at time 0. -/
def sysAfterAlice : Sys :=
  (handleInit init0 none (JSVal.str "room1") (JSVal.str "alice") 1 0).1

/-- A member record with both ephemeral fields stripped. -/
def strippedMember (joined seen : Nat) : User :=
  { timeoutId := none, socketId := none, joinedAt := joined, lastSeen := seen }

/-- Claim C2 is violated by the code: already after the very first
admission (a reachable state), the admitted member's `socketId` and
`timeoutId` have been stripped from the in-memory registry by the
`saveRoom` call that ends `handleInit`, so the member has no live
connection and no pending eviction timer. -/
theorem admission_breaks_grace_invariant :
    Reachable sysAfterAlice ∧ ¬ disconnectedHaveTimers sysAfterAlice := by
  constructor
  · exact Relation.ReflTransGen.single
      (Step.init init0 none (JSVal.str "room1") (JSVal.str "alice") 1 0)
  · intro h
    exact h "room1"
      { text := "", users := [("alice", strippedMember 0 0)], createdAt := 0, lastUpdated := 0 }
      "alice" (strippedMember 0 0) rfl rfl rfl rfl

/-- A concrete room with one connected member (socket 5) that also holds a
stale timer handle 7, used to exhibit the `saveRoom` mutation. -/
def roomBefore : Room :=
  { text := "hi",
    users := [("alice", { timeoutId := some 7, socketId := some 5, joinedAt := 0, lastSeen := 0 })],
    createdAt := 0,
    lastUpdated := 0 }

/-- Claim C3, evaluated at a failing input: the record `saveRoom` writes to
disk indeed carries no `socketId`/`timeoutId` (that half of the claim
holds), but the save ALSO strips both fields from the in-memory member,
which before the save held `socketId = 5` and `timeoutId = 7` — the frame
half of the claim is false. -/
theorem saveRoom_mutates_registry :
    alookup (saveRoom [("room1", roomBefore)] [] "room1" 3).2 "room1" =
      some { text := "hi", users := [("alice", strippedMember 0 0)],
             createdAt := 0, lastUpdated := 3 } ∧
    alookup (saveRoom [("room1", roomBefore)] [] "room1" 3).1 "room1" =
      some { text := "hi", users := [("alice", strippedMember 0 0)],
             createdAt := 0, lastUpdated := 0 } ∧
    (alookup [("room1", roomBefore)] "room1").map (fun room => alookup room.users "alice") =
      some (some { timeoutId := some 7, socketId := some 5, joinedAt := 0, lastSeen := 0 }) :=
  ⟨rfl, rfl, rfl⟩

/-- Trace for claim C6, step 1: alice joins room1. -/
def sysTrace1 : Sys :=
  (handleInit init0 none (JSVal.str "room1") (JSVal.str "alice") 1 0).1

/-- Step 2: bob joins room1. -/
def sysTrace2 : Sys :=
  (handleInit sysTrace1 none (JSVal.str "room1") (JSVal.str "bob") 2 1).1

/-- Step 3: alice's connection closes; grace timer 0 is armed for her. -/
def sysTrace3 : Sys :=
  handleDisconnect sysTrace2 (some ("room1", "alice"))

/-- Step 4: bob edits the text; the `saveRoom` at the end of
`handleTextChange` strips alice's stored `timeoutId` handle. -/
def sysTrace4 : Sys :=
  (handleTextChange sysTrace3 (JSVal.str "hello") (JSVal.str "room1") (JSVal.str "bob") 3).1

/-- Step 5: alice is readmitted on a fresh socket before her timer fires. -/
def sysTrace5 : Sys :=
  (handleInit sysTrace4 none (JSVal.str "room1") (JSVal.str "alice") 3 4).1

/-- Claim C6 is violated by the code: alice is in GRACE with armed timer 0
(step 4); her readmission succeeds, but `reconnectUser` can only
`clearTimeout` the handle stored on the member, and that handle was wiped
by the intervening save — so after the readmission the eviction timer is
still armed, and when it fires the freshly reconnected member is removed
from the room. -/
theorem reconnect_does_not_cancel_timer :
    sysTrace4.pending = [(0, "room1", "alice")] ∧
    userExists sysTrace4.data "room1" "alice" = true ∧
    (handleInit sysTrace4 none (JSVal.str "room1") (JSVal.str "alice") 3 4).2.2 =
      InitResult.ok false "room1" "alice" ∧
    sysTrace5.pending = [(0, "room1", "alice")] ∧
    userExists (fireTimer sysTrace5 0 5).data "room1" "alice" = false :=
  ⟨rfl, rfl, rfl, rfl, rfl⟩

/-! ### Claim C1 — admission capacity check -/

/-- Claim C1: a fresh admission request with usable ids is rejected with
`RoomFull` — leaving every part of the state unchanged — exactly when the
room already holds at least `MAX_ROOM_SIZE` members and the user is not
one of them; an admission by an existing member always succeeds, whatever
the occupancy (in particular at `MAX_ROOM_SIZE`). -/
theorem handleInit_capacity (s : Sys) (syncUrl userIdRaw : JSVal) (socketId : SocketId)
    (now : Nat) (roomId userId : String)
    (hr : sanitizeRoomId syncUrl = some roomId) (hrne : roomId ≠ "")
    (hu : sanitizeUserId userIdRaw = some userId) (hune : userId ≠ "") :
    (getUserCount s.data roomId ≥ MAX_ROOM_SIZE → userExists s.data roomId userId = false →
       handleInit s none syncUrl userIdRaw socketId now = (s, none, InitResult.roomFull)) ∧
    (userExists s.data roomId userId = true →
       (handleInit s none syncUrl userIdRaw socketId now).2.2 =
         InitResult.ok false roomId userId) := by
  constructor
  · intro hfull hnex
    simp only [handleInit, hr, hu]
    simp [hrne, hune, boundTruthy, hfull, hnex]
  · intro hex
    obtain ⟨room, u, hroom, husr⟩ := (userExists_iff s.data roomId userId).mp hex
    simp only [handleInit, hr, hu]
    simp [hrne, hune, boundTruthy, hex, getRoomData, hroom, reconnectUser, husr]

/-- A membership object already at the configured capacity of ten. -/
def fullUsers : List (UserId × User) :=
  [("u0", strippedMember 0 0), ("u1", strippedMember 0 0), ("u2", strippedMember 0 0),
   ("u3", strippedMember 0 0), ("u4", strippedMember 0 0), ("u5", strippedMember 0 0),
   ("u6", strippedMember 0 0), ("u7", strippedMember 0 0), ("u8", strippedMember 0 0),
   ("u9", strippedMember 0 0)]

/-- A system whose only room is at capacity. -/
def fullSys : Sys :=
  { data := [("room1", { text := "", users := fullUsers, createdAt := 0, lastUpdated := 0 })],
    store := [], pending := [], nextTimer := 0 }

/-- Witness for C1: at a room holding ten members, the unknown user
"carol" is rejected with `RoomFull` and nothing changes, while the
existing member "u3" is readmitted successfully at the same occupancy. -/
theorem handleInit_capacity_witness :
    handleInit fullSys none (JSVal.str "room1") (JSVal.str "carol") 9 5 =
      (fullSys, none, InitResult.roomFull) ∧
    (handleInit fullSys none (JSVal.str "room1") (JSVal.str "u3") 9 5).2.2 =
      InitResult.ok false "room1" "u3" :=
  ⟨(handleInit_capacity fullSys (JSVal.str "room1") (JSVal.str "carol") 9 5 "room1" "carol"
      rfl (by decide) rfl (by decide)).1 (by decide) (by decide),
   (handleInit_capacity fullSys (JSVal.str "room1") (JSVal.str "u3") 9 5 "room1" "u3"
      rfl (by decide) rfl (by decide)).2 (by decide)⟩

/-! ### Claim C8 — fetchText authorization -/

/-- Claim C8: `handleInitText` answers with the room's current text
exactly when the requesting connection's bound `(roomId, userId)` pair
equals the requested pair (the empty string when the room does not exist);
every unbound or mismatched request is rejected as unauthorized and yields
no text. -/
theorem handleInitText_auth (bound : Option (RoomId × UserId)) (data : RoomMap)
    (urlRaw userIdRaw : JSVal) (roomId userId : String)
    (hr : sanitizeRoomId urlRaw = some roomId) (hrne : roomId ≠ "")
    (hu : sanitizeUserId userIdRaw = some userId) (hune : userId ≠ "") :
    (bound = some (roomId, userId) →
       handleInitText bound data urlRaw userIdRaw =
         InitTextResult.gotText ((getRoomData data roomId).elim "" Room.text) roomId) ∧
    (bound ≠ some (roomId, userId) →
       handleInitText bound data urlRaw userIdRaw = InitTextResult.unauthorized) := by
  constructor
  · intro hb
    subst hb
    simp only [handleInitText, hr, hu]
    cases h : getRoomData data roomId <;> simp [hrne, hune, h]
  · intro hb
    simp only [handleInitText, hr, hu]
    cases bound with
    | none => simp [hrne, hune]
    | some p =>
        obtain ⟨br, bu⟩ := p
        have hmis : br ≠ roomId ∨ bu ≠ userId := by
          by_cases h1 : br = roomId
          · refine Or.inr (fun h2 => hb ?_)
            rw [h1, h2]
          · exact Or.inl h1
        rcases hmis with h | h <;> simp [hrne, hune, h]

/-- A registry holding one room with text "hello" and member alice. -/
def authData : RoomMap :=
  [("room1", { text := "hello", users := [("alice", strippedMember 0 0)],
               createdAt := 0, lastUpdated := 0 })]

/-- Witness for C8: the matching bound pair gets the text, a mismatched
pair is rejected, and a matching pair on a room that does not exist gets
the empty string. -/
theorem handleInitText_auth_witness :
    handleInitText (some ("room1", "alice")) authData (JSVal.str "room1") (JSVal.str "alice") =
      InitTextResult.gotText "hello" "room1" ∧
    handleInitText (some ("room1", "alice")) authData (JSVal.str "room1") (JSVal.str "bob") =
      InitTextResult.unauthorized ∧
    handleInitText (some ("roomX", "alice")) authData (JSVal.str "roomX") (JSVal.str "alice") =
      InitTextResult.gotText "" "roomX" :=
  ⟨(handleInitText_auth (some ("room1", "alice")) authData (JSVal.str "room1")
      (JSVal.str "alice") "room1" "alice" rfl (by decide) rfl (by decide)).1 rfl,
   (handleInitText_auth (some ("room1", "alice")) authData (JSVal.str "room1")
      (JSVal.str "bob") "room1" "bob" rfl (by decide) rfl (by decide)).2 (by decide),
   (handleInitText_auth (some ("roomX", "alice")) authData (JSVal.str "roomX")
      (JSVal.str "alice") "roomX" "alice" rfl (by decide) rfl (by decide)).1 rfl⟩

/-! ### Claim C7 — text change validation and effect -/

/-- Claim C7: with usable ids, `handleTextChange` rejects exactly when the
room does not exist or the user is not a member of it, and every rejection
returns the state untouched (text, `lastUpdated` and member set included);
on success the room's text becomes `sanitizeText(rawText, MAX_TEXT_LENGTH)`
and both the room's `lastUpdated` and the member's `lastSeen` are set to
the current time. -/
theorem handleTextChange_spec (s : Sys) (textRaw syncUrl userIdRaw : JSVal) (now : Nat)
    (roomId userId : String)
    (hr : sanitizeRoomId syncUrl = some roomId) (hrne : roomId ≠ "")
    (hu : sanitizeUserId userIdRaw = some userId) (hune : userId ≠ "") :
    ((getRoomData s.data roomId).isNone →
        handleTextChange s textRaw syncUrl userIdRaw now =
          (s, TextChangeResult.invalidRoomOrUser)) ∧
    ((getRoomData s.data roomId).isSome → userExists s.data roomId userId = false →
        handleTextChange s textRaw syncUrl userIdRaw now = (s, TextChangeResult.notInRoom)) ∧
    (userExists s.data roomId userId = true →
        (handleTextChange s textRaw syncUrl userIdRaw now).2 =
          TextChangeResult.ok (sanitizeText textRaw MAX_TEXT_LENGTH) ∧
        ∃ room', alookup (handleTextChange s textRaw syncUrl userIdRaw now).1.data roomId
            = some room' ∧
          room'.text = sanitizeText textRaw MAX_TEXT_LENGTH ∧
          room'.lastUpdated = now ∧
          ∃ usr, alookup room'.users userId = some usr ∧ usr.lastSeen = now) := by
  refine ⟨?_, ?_, ?_⟩
  · intro hnone
    simp only [handleTextChange, hr, hu]
    simp [hnone]
  · intro hsome hnex
    simp only [handleTextChange, hr, hu]
    rw [Option.isSome_iff_exists] at hsome
    obtain ⟨room, hroom⟩ := hsome
    simp [hrne, hune, hroom, hnex]
  · intro hex
    obtain ⟨room, u, hroom, husr⟩ := (userExists_iff s.data roomId userId).mp hex
    have hga : getRoomData s.data roomId = some room := hroom
    simp only [handleTextChange, hr, hu]
    rw [if_neg (by simp [hga, hrne, hune]), if_neg (by simp [hex])]
    set clean := sanitizeText textRaw MAX_TEXT_LENGTH with hclean
    have h1 : updateRoomText s.data roomId clean now = aset s.data roomId { room with text := clean, lastUpdated := now } := by
      unfold updateRoomText
      rw [hroom]
    have h2 : alookup (aset s.data roomId { room with text := clean, lastUpdated := now }) roomId = some { room with text := clean, lastUpdated := now } := by
      rw [alookup_aset]
      simp
    have h3 : updateUserLastSeen (aset s.data roomId { room with text := clean, lastUpdated := now }) roomId userId now = aset (aset s.data roomId { room with text := clean, lastUpdated := now }) roomId { room with text := clean, lastUpdated := now, users := aset room.users userId { u with lastSeen := now } } := by
      unfold updateUserLastSeen
      rw [h2]
      show (match alookup room.users userId with | none => _ | some u => _) = _
      rw [husr]
    have h4 : alookup (aset (aset s.data roomId { room with text := clean, lastUpdated := now }) roomId { room with text := clean, lastUpdated := now, users := aset room.users userId { u with lastSeen := now } }) roomId = some { room with text := clean, lastUpdated := now, users := aset room.users userId { u with lastSeen := now } } := by
      rw [alookup_aset]
      simp
    rw [h1, h3]
    constructor
    · rfl
    · refine ⟨_, saveRoom_data_lookup_eq _ _ _ _ _ h4, rfl, rfl, ?_⟩
      refine ⟨stripUser { u with lastSeen := now }, ?_, rfl⟩
      show alookup (stripUsers (aset room.users userId { u with lastSeen := now })) userId = _
      rw [alookup_stripUsers, alookup_aset]
      simp

/-- The system around `authData`, used to instantiate the text-change and
eviction theorems. -/
def authSys : Sys :=
  { data := authData, store := [], pending := [], nextTimer := 0 }

/-- Witness for C7: a change for an unknown room is rejected untouched, a
change by a non-member is rejected untouched, and a change by the member
alice succeeds with the sanitized text. -/
theorem handleTextChange_spec_witness :
    handleTextChange authSys (JSVal.str "new") (JSVal.str "roomX") (JSVal.str "alice") 9 =
      (authSys, TextChangeResult.invalidRoomOrUser) ∧
    handleTextChange authSys (JSVal.str "new") (JSVal.str "room1") (JSVal.str "bob") 9 =
      (authSys, TextChangeResult.notInRoom) ∧
    (handleTextChange authSys (JSVal.str "new") (JSVal.str "room1") (JSVal.str "alice") 9).2 =
      TextChangeResult.ok "new" :=
  ⟨(handleTextChange_spec authSys (JSVal.str "new") (JSVal.str "roomX") (JSVal.str "alice") 9
      "roomX" "alice" rfl (by decide) rfl (by decide)).1 (by decide),
   (handleTextChange_spec authSys (JSVal.str "new") (JSVal.str "room1") (JSVal.str "bob") 9
      "room1" "bob" rfl (by decide) rfl (by decide)).2.1 (by decide) (by decide),
   ((handleTextChange_spec authSys (JSVal.str "new") (JSVal.str "room1") (JSVal.str "alice") 9
      "room1" "alice" rfl (by decide) rfl (by decide)).2.2 (by decide)).1⟩

/-! ### Claim C5 — eviction when the grace timer fires -/

/-- Claim C5: when an armed grace timer fires for a member that still
exists, the member is removed unconditionally and the room's
`lastUpdated` is refreshed; if the member count thereby reaches zero the
room is deleted from both the registry and the durable store, otherwise
the (now strictly smaller, still non-empty) room is persisted — an empty
room is never left in the registry or on disk. -/
theorem fireTimer_evicts (s : Sys) (tid : TimerId) (roomId userId : String) (now : Nat)
    (room : Room) (u : User)
    (hp : (s.pending.filter (fun p => p.1 = tid)).head? = some (tid, roomId, userId))
    (hroom : alookup s.data roomId = some room)
    (husr : alookup room.users userId = some u) :
    userExists (fireTimer s tid now).data roomId userId = false ∧
    ((aerase room.users userId).length = 0 →
       alookup (fireTimer s tid now).data roomId = none ∧
       alookup (fireTimer s tid now).store roomId = none) ∧
    ((aerase room.users userId).length ≠ 0 →
       ∃ room', alookup (fireTimer s tid now).data roomId = some room' ∧
         room'.lastUpdated = now ∧
         room'.users.length < room.users.length ∧
         room'.users.length ≠ 0 ∧
         ∃ rec, alookup (fireTimer s tid now).store roomId = some rec ∧
           rec.users.length = room'.users.length ∧ rec.lastUpdated = now) := by
  have hrem : removeUser s.data roomId userId now = (aset s.data roomId { room with users := aerase room.users userId, lastUpdated := now }, (aerase room.users userId).length) := by
    unfold removeUser
    rw [hroom]
  have hlt : (aerase room.users userId).length < room.users.length :=
    length_aerase_lt room.users userId u husr
  by_cases hz : (aerase room.users userId).length = 0
  · have hfin : fireTimer s tid now = { data := aerase (aset s.data roomId { room with users := aerase room.users userId, lastUpdated := now }) roomId, store := aerase s.store roomId, pending := s.pending.filter (fun p => p.1 ≠ tid), nextTimer := s.nextTimer } := by
      simp [fireTimer, hp, hrem, hz, deleteRoom]
    rw [hfin]
    refine ⟨?_, fun _ => ⟨?_, ?_⟩, fun hnz => absurd hz hnz⟩
    · simp [userExists, alookup_aerase]
    · simp [alookup_aerase]
    · simp [alookup_aerase]
  · have hfin : fireTimer s tid now = { data := (saveRoom (aset s.data roomId { room with users := aerase room.users userId, lastUpdated := now }) s.store roomId now).1, store := (saveRoom (aset s.data roomId { room with users := aerase room.users userId, lastUpdated := now }) s.store roomId now).2, pending := s.pending.filter (fun p => p.1 ≠ tid), nextTimer := s.nextTimer } := by
      simp [fireTimer, hp, hrem, hz]
    have hlook : alookup (aset s.data roomId { room with users := aerase room.users userId, lastUpdated := now }) roomId = some { room with users := aerase room.users userId, lastUpdated := now } := by
      rw [alookup_aset]
      simp
    have hdata := saveRoom_data_lookup_eq _ s.store roomId now _ hlook
    have hstore := saveRoom_store_lookup_eq _ s.store roomId now _ hlook
    rw [hfin]
    refine ⟨?_, fun hez => absurd hez hz, fun _ => ?_⟩
    · simp [userExists, hdata, alookup_stripUsers, alookup_aerase]
    · refine ⟨_, hdata, rfl, ?_, ?_, _, hstore, ?_, rfl⟩
      · show (stripUsers (aerase room.users userId)).length < room.users.length
        rw [stripUsers_length]
        exact hlt
      · show (stripUsers (aerase room.users userId)).length ≠ 0
        rw [stripUsers_length]
        exact hz
      · rfl

/-- A room whose member alice is mid-grace (timer 0 armed) while bob is
still present. -/
def graceRoom : Room :=
  { text := "hi",
    users := [("alice", { timeoutId := some 0, socketId := none, joinedAt := 0, lastSeen := 0 }),
              ("bob", strippedMember 0 0)],
    createdAt := 0, lastUpdated := 0 }

/-- The system around `graceRoom`, with alice's eviction timer armed. -/
def graceSys : Sys :=
  { data := [("room1", graceRoom)], store := [("room1", graceRoom)],
    pending := [(0, "room1", "alice")], nextTimer := 1 }

/-- Witness for C5: firing alice's timer in `graceSys` removes her, and
the smaller one-member room is kept (with refreshed timestamp) in both
the registry and the store. -/
theorem fireTimer_evicts_witness :
    userExists (fireTimer graceSys 0 7).data "room1" "alice" = false ∧
    (∃ room', alookup (fireTimer graceSys 0 7).data "room1" = some room' ∧
       room'.lastUpdated = 7 ∧ room'.users.length < graceRoom.users.length ∧
       room'.users.length ≠ 0 ∧
       ∃ rec, alookup (fireTimer graceSys 0 7).store "room1" = some rec ∧
         rec.users.length = room'.users.length ∧ rec.lastUpdated = 7) :=
  ⟨(fireTimer_evicts graceSys 0 "room1" "alice" 7 graceRoom ⟨some 0, none, 0, 0⟩
      rfl rfl rfl).1,
   (fireTimer_evicts graceSys 0 "room1" "alice" 7 graceRoom ⟨some 0, none, 0, 0⟩
      rfl rfl rfl).2.2 (by decide)⟩

/-! ### Claim C10 — capacity invariant over all reachable states -/

/-- Every room of a registry holds at most `MAX_ROOM_SIZE` members. -/
def countsOKData (data : RoomMap) : Prop :=
  ∀ roomId room, alookup data roomId = some room → room.users.length ≤ MAX_ROOM_SIZE

theorem countsOKData_aset (data : RoomMap) (roomId : String) (room : Room)
    (h : countsOKData data) (hlen : room.users.length ≤ MAX_ROOM_SIZE) :
    countsOKData (aset data roomId room) := by
  intro j rj hj
  rw [alookup_aset] at hj
  by_cases hk : j = roomId
  · rw [if_pos hk] at hj
    cases hj
    exact hlen
  · rw [if_neg hk] at hj
    exact h j rj hj

theorem countsOKData_aerase (data : RoomMap) (roomId : String)
    (h : countsOKData data) : countsOKData (aerase data roomId) := by
  intro j rj hj
  rw [alookup_aerase] at hj
  by_cases hk : j = roomId
  · rw [if_pos hk] at hj
    cases hj
  · rw [if_neg hk] at hj
    exact h j rj hj

theorem countsOKData_saveRoom (data store : RoomMap) (roomId : String) (now : Nat)
    (h : countsOKData data) : countsOKData (saveRoom data store roomId now).1 := by
  unfold saveRoom
  cases hroom : alookup data roomId with
  | none => exact h
  | some room =>
      apply countsOKData_aset _ _ _ h
      show (stripUsers room.users).length ≤ MAX_ROOM_SIZE
      rw [stripUsers_length]
      exact h roomId room hroom

theorem countsOKData_createRoom (data : RoomMap) (roomId : String) (now : Nat)
    (h : countsOKData data) : countsOKData (createRoom data roomId now) := by
  unfold createRoom
  apply countsOKData_aset _ _ _ h
  simp [MAX_ROOM_SIZE]

theorem countsOKData_updateRoomText (data : RoomMap) (roomId : String) (text : String)
    (now : Nat) (h : countsOKData data) : countsOKData (updateRoomText data roomId text now) := by
  unfold updateRoomText
  cases hroom : alookup data roomId with
  | none => exact h
  | some room =>
      apply countsOKData_aset _ _ _ h
      exact h roomId room hroom

theorem countsOKData_updateUserLastSeen (data : RoomMap) (roomId userId : String)
    (now : Nat) (h : countsOKData data) :
    countsOKData (updateUserLastSeen data roomId userId now) := by
  cases hroom : alookup data roomId with
  | none =>
      simp only [updateUserLastSeen, hroom]
      exact h
  | some room =>
      cases husr : alookup room.users userId with
      | none =>
          simp only [updateUserLastSeen, hroom, husr]
          exact h
      | some u =>
          simp only [updateUserLastSeen, hroom, husr]
          apply countsOKData_aset _ _ _ h
          show (aset room.users userId _).length ≤ MAX_ROOM_SIZE
          rw [length_aset_of_isSome]
          · exact h roomId room hroom
          · rw [husr]
            rfl

theorem countsOKData_disconnectUser (data : RoomMap) (roomId userId : String)
    (h : countsOKData data) : countsOKData (disconnectUser data roomId userId).1 := by
  cases hroom : alookup data roomId with
  | none =>
      simp only [disconnectUser, hroom]
      exact h
  | some room =>
      cases husr : alookup room.users userId with
      | none =>
          simp only [disconnectUser, hroom, husr]
          exact h
      | some u =>
          simp only [disconnectUser, hroom, husr]
          apply countsOKData_aset _ _ _ h
          show (aset room.users userId _).length ≤ MAX_ROOM_SIZE
          rw [length_aset_of_isSome]
          · exact h roomId room hroom
          · rw [husr]
            rfl

theorem countsOKData_setUserTimeout (data : RoomMap) (roomId userId : String)
    (tid : TimerId) (h : countsOKData data) :
    countsOKData (setUserTimeout data roomId userId tid) := by
  cases hroom : alookup data roomId with
  | none =>
      simp only [setUserTimeout, hroom]
      exact h
  | some room =>
      cases husr : alookup room.users userId with
      | none =>
          simp only [setUserTimeout, hroom, husr]
          exact h
      | some u =>
          simp only [setUserTimeout, hroom, husr]
          apply countsOKData_aset _ _ _ h
          show (aset room.users userId _).length ≤ MAX_ROOM_SIZE
          rw [length_aset_of_isSome]
          · exact h roomId room hroom
          · rw [husr]
            rfl

theorem countsOKData_removeUser (data : RoomMap) (roomId userId : String) (now : Nat)
    (h : countsOKData data) : countsOKData (removeUser data roomId userId now).1 := by
  unfold removeUser
  cases hroom : alookup data roomId with
  | none => exact h
  | some room =>
      apply countsOKData_aset _ _ _ h
      show (aerase room.users userId).length ≤ MAX_ROOM_SIZE
      exact le_trans (length_aerase_le _ _) (h roomId room hroom)

theorem reconnectUser_preserves (data : RoomMap) (roomId userId : String) (sock : SocketId)
    (now : Nat) (res : RoomMap × Option TimerId)
    (heq : reconnectUser data roomId userId sock now = some res)
    (h : countsOKData data) : countsOKData res.1 := by
  cases hroom : alookup data roomId with
  | none =>
      simp only [reconnectUser, hroom] at heq
      cases heq
  | some room =>
      cases husr : alookup room.users userId with
      | none =>
          simp only [reconnectUser, hroom, husr, Option.some.injEq] at heq
          rw [← heq]
          exact h
      | some u =>
          simp only [reconnectUser, hroom, husr, Option.some.injEq] at heq
          rw [← heq]
          apply countsOKData_aset _ _ _ h
          show (aset room.users userId _).length ≤ MAX_ROOM_SIZE
          rw [length_aset_of_isSome]
          · exact h roomId room hroom
          · rw [husr]
            rfl

theorem addUserToRoom_preserves (data : RoomMap) (roomId userId : String) (sock : SocketId)
    (now : Nat) (res : RoomMap) (room : Room)
    (heq : addUserToRoom data roomId userId sock now = some res)
    (h : countsOKData data) (hroom : alookup data roomId = some room)
    (hnex : alookup room.users userId = none)
    (hlen : room.users.length < MAX_ROOM_SIZE) : countsOKData res := by
  unfold addUserToRoom at heq
  rw [hroom] at heq
  cases heq
  apply countsOKData_aset _ _ _ h
  show (aset room.users userId _).length ≤ MAX_ROOM_SIZE
  rw [length_aset_of_none _ _ _ hnex]
  omega

theorem handleInit_preserves (s : Sys) (bound : Option (RoomId × UserId))
    (syncUrl userIdRaw : JSVal) (socketId : SocketId) (now : Nat)
    (h : countsOKData s.data) :
    countsOKData (handleInit s bound syncUrl userIdRaw socketId now).1.data := by
  cases hsr : sanitizeRoomId syncUrl with
  | none =>
      cases hsu : sanitizeUserId userIdRaw with
      | none =>
          simp only [handleInit, hsr, hsu]
          exact h
      | some userId =>
          simp only [handleInit, hsr, hsu]
          exact h
  | some roomId =>
      cases hsu : sanitizeUserId userIdRaw with
      | none =>
          simp only [handleInit, hsr, hsu]
          exact h
      | some userId =>
          simp only [handleInit, hsr, hsu]
          by_cases hids : roomId = "" ∨ userId = ""
          · rw [if_pos hids]
            exact h
          · rw [if_neg hids]
            by_cases hb : boundTruthy bound = true
            · rw [if_pos hb]
              exact h
            · rw [if_neg hb]
              by_cases hcap : getUserCount s.data roomId ≥ MAX_ROOM_SIZE ∧
                  userExists s.data roomId userId = false
              · rw [if_pos hcap]
                exact h
              · rw [if_neg hcap]
                by_cases hsome : (getRoomData s.data roomId).isSome = true
                · rw [if_pos hsome]
                  by_cases hex : userExists s.data roomId userId = true
                  · rw [if_pos hex]
                    cases hrc : reconnectUser s.data roomId userId socketId now with
                    | none =>
                        simp only [hrc]
                        exact h
                    | some res =>
                        obtain ⟨data2, ctid⟩ := res
                        simp only [hrc]
                        exact countsOKData_saveRoom _ _ _ _
                          (reconnectUser_preserves _ _ _ _ _ _ hrc h)
                  · rw [if_neg hex]
                    cases hadd : addUserToRoom s.data roomId userId socketId now with
                    | none =>
                        simp only [hadd]
                        exact h
                    | some data2 =>
                        simp only [hadd]
                        apply countsOKData_saveRoom
                        have hex' : userExists s.data roomId userId = false :=
                          Bool.not_eq_true _ ▸ Bool.eq_false_iff.mpr hex
                        rw [Option.isSome_iff_exists] at hsome
                        obtain ⟨room, hroom⟩ := hsome
                        have hroom' : alookup s.data roomId = some room := hroom
                        have hnex : alookup room.users userId = none := by
                          simp only [userExists, hroom'] at hex'
                          exact Option.not_isSome_iff_eq_none.mp (by simp [hex'])
                        have hlen : room.users.length < MAX_ROOM_SIZE := by
                          have hng : ¬ getUserCount s.data roomId ≥ MAX_ROOM_SIZE :=
                            fun hge => hcap ⟨hge, hex'⟩
                          have hcnt : getUserCount s.data roomId = room.users.length := by
                            simp only [getUserCount, hroom']
                          omega
                        exact addUserToRoom_preserves _ _ _ _ _ _ _ hadd h hroom' hnex hlen
                · rw [if_neg hsome]
                  have h1 : countsOKData (createRoom s.data roomId now) :=
                    countsOKData_createRoom _ _ _ h
                  by_cases hex : userExists (createRoom s.data roomId now) roomId userId = true
                  · rw [if_pos hex]
                    cases hrc : reconnectUser (createRoom s.data roomId now) roomId userId
                        socketId now with
                    | none =>
                        simp only [hrc]
                        exact h1
                    | some res =>
                        obtain ⟨data2, ctid⟩ := res
                        simp only [hrc]
                        exact countsOKData_saveRoom _ _ _ _
                          (reconnectUser_preserves _ _ _ _ _ _ hrc h1)
                  · rw [if_neg hex]
                    cases hadd : addUserToRoom (createRoom s.data roomId now) roomId userId
                        socketId now with
                    | none =>
                        simp only [hadd]
                        exact h1
                    | some data2 =>
                        simp only [hadd]
                        apply countsOKData_saveRoom
                        have hroom' : alookup (createRoom s.data roomId now) roomId =
                            some { text := "", users := [], createdAt := now, lastUpdated := now } := by
                          unfold createRoom
                          rw [alookup_aset]
                          simp
                        exact addUserToRoom_preserves _ _ _ _ _ _ _ hadd h1 hroom' rfl
                          (by simp [MAX_ROOM_SIZE])

theorem handleTextChange_preserves (s : Sys) (textRaw syncUrl userIdRaw : JSVal) (now : Nat)
    (h : countsOKData s.data) :
    countsOKData (handleTextChange s textRaw syncUrl userIdRaw now).1.data := by
  cases hsr : sanitizeRoomId syncUrl with
  | none =>
      cases hsu : sanitizeUserId userIdRaw with
      | none =>
          simp only [handleTextChange, hsr, hsu]
          exact h
      | some userId =>
          simp only [handleTextChange, hsr, hsu]
          exact h
  | some roomId =>
      cases hsu : sanitizeUserId userIdRaw with
      | none =>
          simp only [handleTextChange, hsr, hsu]
          exact h
      | some userId =>
          simp only [handleTextChange, hsr, hsu]
          by_cases hg1 : roomId = "" ∨ userId = "" ∨ (getRoomData s.data roomId).isNone = true
          · rw [if_pos hg1]
            exact h
          · rw [if_neg hg1]
            by_cases hg2 : userExists s.data roomId userId = false
            · rw [if_pos hg2]
              exact h
            · rw [if_neg hg2]
              exact countsOKData_saveRoom _ _ _ _
                (countsOKData_updateUserLastSeen _ _ _ _ (countsOKData_updateRoomText _ _ _ _ h))

theorem handleDisconnect_preserves (s : Sys) (bound : Option (RoomId × UserId))
    (h : countsOKData s.data) : countsOKData (handleDisconnect s bound).data := by
  cases bound with
  | none => exact h
  | some p =>
      obtain ⟨roomId, userId⟩ := p
      simp only [handleDisconnect]
      by_cases hids : roomId = "" ∨ userId = ""
      · rw [if_pos hids]
        exact h
      · rw [if_neg hids]
        by_cases hnone : (getRoomData s.data roomId).isNone = true
        · rw [if_pos hnone]
          exact h
        · rw [if_neg hnone]
          cases hd : (disconnectUser s.data roomId userId).2 with
          | none =>
              simp only [hd]
              exact countsOKData_disconnectUser _ _ _ h
          | some userData =>
              simp only [hd]
              exact countsOKData_setUserTimeout _ _ _ _ (countsOKData_disconnectUser _ _ _ h)

theorem fireTimer_preserves (s : Sys) (tid : TimerId) (now : Nat)
    (h : countsOKData s.data) : countsOKData (fireTimer s tid now).data := by
  cases hh : (s.pending.filter (fun p => p.1 = tid)).head? with
  | none =>
      simp only [fireTimer, hh]
      exact h
  | some entry =>
      simp only [fireTimer, hh]
      by_cases hz : (removeUser s.data entry.2.1 entry.2.2 now).2 = 0
      · rw [if_pos hz]
        exact countsOKData_aerase _ _ (countsOKData_removeUser _ _ _ _ h)
      · rw [if_neg hz]
        exact countsOKData_saveRoom _ _ _ _ (countsOKData_removeUser _ _ _ _ h)

theorem step_preserves {s t : Sys} (hstep : Step s t) (h : countsOKData s.data) :
    countsOKData t.data := by
  cases hstep with
  | init bound syncUrl userIdRaw socketId now =>
      exact handleInit_preserves s bound syncUrl userIdRaw socketId now h
  | textChange textRaw syncUrl userIdRaw now =>
      exact handleTextChange_preserves s textRaw syncUrl userIdRaw now h
  | disconnect bound => exact handleDisconnect_preserves s bound h
  | fire tid now => exact fireTimer_preserves s tid now h

/-- Claim C10: in every state reachable from the empty registry by
admissions, reconnections, text changes, disconnects and evictions, every
room holds at most `MAX_ROOM_SIZE` members — admission is the only
transition that adds a member, and only behind the capacity check. -/
theorem reachable_capacity (s : Sys) (h : Reachable s) :
    ∀ roomId room, alookup s.data roomId = some room →
      room.users.length ≤ MAX_ROOM_SIZE := by
  unfold Reachable at h
  induction h with
  | refl =>
      intro j rj hj
      simp [init0, alookup] at hj
  | tail _ hstep ih => exact step_preserves hstep ih

/-- Witness for C10: the room created by the first admission holds one
member, within capacity. -/
theorem reachable_capacity_witness :
    ({ text := "", users := [("alice", strippedMember 0 0)], createdAt := 0,
       lastUpdated := 0 } : Room).users.length ≤ MAX_ROOM_SIZE :=
  reachable_capacity sysAfterAlice
    (Relation.ReflTransGen.single
      (Step.init init0 none (JSVal.str "room1") (JSVal.str "alice") 1 0))
    "room1" _ rfl

/-! ### Claim C4 — persistence round-trip through a restart -/

theorem clearRooms_empty_stable (ids : List RoomId) (data store : RoomMap) (now : Nat)
    (roomId : String) (room : Room) (hroom : alookup data roomId = some room)
    (hemp : room.users = []) :
    alookup (clearRooms ids data store now).1 roomId = some room := by
  induction ids generalizing data store with
  | nil => simpa [clearRooms] using hroom
  | cons id rest ih =>
      by_cases hid : id = roomId
      · subst hid
        simp only [clearRooms, hroom]
        rw [if_neg]
        · exact ih data store hroom
        · simp [hemp]
      · cases hlook : alookup data id with
        | none =>
            simp only [clearRooms, hlook]
            exact ih data store hroom
        | some r =>
            simp only [clearRooms, hlook]
            by_cases hlen : r.users.length > 0
            · rw [if_pos hlen]
              apply ih
              rw [saveRoom_data_lookup_ne _ _ _ _ _ (fun e => hid e.symm), alookup_aset,
                if_neg (fun e => hid e.symm)]
              exact hroom
            · rw [if_neg hlen]
              exact ih data store hroom

theorem clearRooms_clears (ids : List RoomId) (data store : RoomMap) (now : Nat)
    (roomId : String) (room : Room) (hroom : alookup data roomId = some room)
    (hmem : roomId ∈ ids) :
    ∃ room', alookup (clearRooms ids data store now).1 roomId = some room' ∧
      room'.users = [] ∧ room'.text = room.text := by
  induction ids generalizing data store room with
  | nil => cases hmem
  | cons id rest ih =>
      by_cases hid : id = roomId
      · subst hid
        simp only [clearRooms, hroom]
        by_cases hlen : room.users.length > 0
        · rw [if_pos hlen]
          have hcl : alookup (aset data id { room with users := ([] : List (UserId × User)) }) id = some { room with users := ([] : List (UserId × User)) } := by
            rw [alookup_aset]
            simp
          have hsv : alookup (saveRoom (aset data id { room with users := ([] : List (UserId × User)) }) store id now).1 id = some { room with users := ([] : List (UserId × User)) } := by
            have hq := saveRoom_data_lookup_eq _ store id now _ hcl
            simpa [stripUsers] using hq
          refine ⟨{ room with users := ([] : List (UserId × User)) }, ?_, rfl, rfl⟩
          exact clearRooms_empty_stable rest _ _ now id _ hsv rfl
        · rw [if_neg hlen]
          have hemp : room.users = [] := by
            cases hq : room.users with
            | nil => rfl
            | cons a l =>
                rw [hq] at hlen
                simp at hlen
          exact ⟨room, clearRooms_empty_stable rest data store now id room hroom hemp,
            hemp, rfl⟩
      · have hmem' : roomId ∈ rest := by
          cases hmem with
          | head => exact absurd rfl hid
          | tail _ hm => exact hm
        cases hlook : alookup data id with
        | none =>
            simp only [clearRooms, hlook]
            exact ih _ _ _ hroom hmem'
        | some r =>
            simp only [clearRooms, hlook]
            by_cases hlen : r.users.length > 0
            · rw [if_pos hlen]
              apply ih
              · rw [saveRoom_data_lookup_ne _ _ _ _ _ (fun e => hid e.symm), alookup_aset,
                  if_neg (fun e => hid e.symm)]
                exact hroom
              · exact hmem'
            · rw [if_neg hlen]
              exact ih _ _ _ hroom hmem'

theorem loadData_lookup (store : RoomMap) (now : Nat) (roomId : String) (rec : Room)
    (h : alookup store roomId = some rec) :
    ∃ room', alookup (loadData store now).1 roomId = some room' ∧
      room'.users = [] ∧ room'.text = rec.text := by
  unfold loadData
  have hload : alookup (store.map (fun p => (p.1, loadRoomFromStore p.2))) roomId =
      some (loadRoomFromStore rec) := by
    rw [alookup_map, h]
    rfl
  have hmem : roomId ∈ (store.map (fun p => (p.1, loadRoomFromStore p.2))).map Prod.fst :=
    alookup_mem_keys _ _ _ hload
  exact clearRooms_clears _ _ _ now roomId (loadRoomFromStore rec) hload hmem

/-- Counterexample to claim C4 as stated: persisting `room1` (one member,
"alice") and reloading the durable store via `loadData` yields a room
whose member id set is EMPTY, not the persisted `{alice}` — `loadData`
deliberately clears every reloaded membership ("Clear all users on server
restart since they're all disconnected"). -/
theorem roundTrip_member_set_cex :
    (alookup (loadData (saveRoom [("room1", roomBefore)] [] "room1" 1).2 2).1 "room1").map
        (fun room => room.users.map Prod.fst) = some [] ∧
    roomBefore.users.map Prod.fst = ["alice"] :=
  ⟨rfl, rfl⟩

/-- Claim C4 as amended: persisting a room with `saveRoom` and reloading
the durable store via `loadData` yields a room with identical `text` whose
member set is empty — hence, vacuously, no reloaded member has a live
connection. -/
theorem roundTrip_amended (data store : RoomMap) (roomId : String) (room : Room)
    (now now2 : Nat) (h : alookup data roomId = some room) :
    ∃ room', alookup (loadData (saveRoom data store roomId now).2 now2).1 roomId =
        some room' ∧
      room'.text = room.text ∧ room'.users = [] := by
  have hst := saveRoom_store_lookup_eq data store roomId now room h
  obtain ⟨room', hl, hu, ht⟩ := loadData_lookup _ now2 roomId _ hst
  exact ⟨room', hl, ht, hu⟩

/-- Witness for the amended C4: the round-trip of `room1` keeps its text
"hi" and reloads with an empty member set. -/
theorem roundTrip_amended_witness :
    ∃ room', alookup (loadData (saveRoom [("room1", roomBefore)] [] "room1" 1).2 2).1
        "room1" = some room' ∧
      room'.text = roomBefore.text ∧ room'.users = [] :=
  roundTrip_amended [("room1", roomBefore)] [] "room1" roomBefore 1 2 rfl

end SyncBoard
